import Mathlib

/-!
Shallow embedding of the RTSIM discrete-event simulation kernel
(METASIM event engine + simulation driver, RTLIB task fabric) and the
pseudo-random number machinery, together with theorems settling the
specification claims about them.

Sources embedded:
  * `src/METASIM/src/randomvar.cpp`  — `RandomGen`, `DetVar`
  * `src/unnamed/part_001`           — `Simulation::sim_step`, `run_to`,
                                       `initRuns`, `run`, `clearEventQueue`
  * `src/unnamed/part_000`           — `SchedInstr::onEnd`
  * `src/RTLIB/src/rttask.cpp`       — `PeriodicTask::createInstance`
  * `src/METASIM/src/event.hpp`      — `Event` data model; the bodies of
    `Event::Cmp`, `Event::post`, `Event::action`, `Event::process` live in
    `event.cpp`, which is not part of the source tree given; those are
    modelled from the specification, as marked on each definition.

C++ `long` arithmetic is modelled with `Int` (no overflow occurs in the
ranges the theorems cover); `Tick` is modelled with `Int`.
-/

namespace MetaSim

/-! ## RandomGen (src/METASIM/src/randomvar.cpp, lines 38-71) -/

/-- The Park-Miller multiplier, `const RandNum RandomGen::A = 16807`. -/
def RandomGen.A : Int := 16807

/-- The Park-Miller modulus, `const RandNum RandomGen::M = 2147483647`. -/
def RandomGen.M : Int := 2147483647

/-- Constant `const RandNum RandomGen::Q = 127773` (`M div A`). -/
def RandomGen.Q : Int := 127773

/-- Constant `const RandNum RandomGen::R = 2836` (`M mod A`). -/
def RandomGen.R : Int := 2836

/-- State of a `RandomGen`: the stored seed `_seed` and current value `_xn`. -/
structure RandomGen where
  seed : Int
  xn : Int
  deriving Repr, DecidableEq

/-- Constructor `RandomGen::RandomGen(RandNum s) : _seed(s), _xn(s)`. -/
def RandomGen.mk' (s : Int) : RandomGen := ⟨s, s⟩

/-- Method `RandomGen::init(RandNum s)`: `_xn = _seed = s`. -/
def RandomGen.init (s : Int) : RandomGen := ⟨s, s⟩

/-- Method `RandomGen::sample()` from randomvar.cpp:
```
xq = _xn / Q; xr = _xn % Q;
_xn = A * xr - R * xq;
if (_xn < 0) _xn += M;
return _xn;
```
(The C++ `/` and `%` on the non-negative states involved coincide with
Lean's `Int` division and modulus.) Returns the new value together with
the updated generator. -/
def RandomGen.sample (g : RandomGen) : Int × RandomGen :=
  let xq := g.xn / RandomGen.Q
  let xr := g.xn % RandomGen.Q
  let x := RandomGen.A * xr - RandomGen.R * xq
  let x' := if x < 0 then x + RandomGen.M else x
  (x', { g with xn := x' })

/-- The list of the first `n` outputs of `sample()` together with the final
generator state. -/
def RandomGen.sampleSeq (g : RandomGen) : Nat → List Int × RandomGen
  | 0 => ([], g)
  | n + 1 =>
    let (v, g') := g.sample
    let (vs, g'') := g'.sampleSeq n
    (v :: vs, g'')

/-! ## DetVar (src/METASIM/src/randomvar.cpp, lines 270-287)

`DetVar` stores a `vector<double>` and a cursor `_count`.  The element type
is kept abstract (`α`): the claims are about the indexing discipline, not
about floating-point values. -/

structure DetVar (α : Type) where
  array : List α
  count : Nat
  deriving Repr, DecidableEq

/-- Constructor `DetVar::DetVar(vector<double> &a) : _array(a) { _count = 0; }`. -/
def DetVar.ofList (a : List α) : DetVar α := ⟨a, 0⟩

/-- Method `DetVar::get()` from randomvar.cpp:
```
if (_count >= _array.size()) _count = 0;
return _array[_count++];
```
The vector access is modelled with `List.get?`; a `none` result is the
out-of-bounds access `_array[c]` with `c ≥ _array.size()`. -/
def DetVar.get (d : DetVar α) : Option α × DetVar α :=
  let c := if d.count ≥ d.array.length then 0 else d.count
  (d.array.get? c, { d with count := c + 1 })

/-- The state of a `DetVar` after `k` calls of `get()`. -/
def DetVar.run (d : DetVar α) : Nat → DetVar α
  | 0 => d
  | k + 1 => ((d.run k).get).2

/-- The result of the `(k+1)`-th call of `get()` on a freshly built
`DetVar` holding `a` (so `detSeq a 0` is the first call's result). -/
def detSeq (a : List α) (k : Nat) : Option α :=
  ((DetVar.ofList a).run k).get.1

/-- The index into `_array` that the `(k+1)`-th call of `get()` reads. -/
def detIndexUsed (a : List α) (k : Nat) : Nat :=
  let d := (DetVar.ofList a).run k
  if d.count ≥ d.array.length then 0 else d.count

end MetaSim

namespace RTSim

/-! ## SchedInstr::onEnd (src/unnamed/part_000, lines 56-79) -/

/-- The externally observable calls `SchedInstr::onEnd` makes, in order. -/
inductive SIOp where
  | onInstrEnd        -- `_father->onInstrEnd()`
  | disableThreshold  -- `k->disableThreshold()`
  | dispatch          -- `k->dispatch()`
  | threEvtProcess    -- `_threEvt.process()`
  deriving Repr, DecidableEq

/-- Method `SchedInstr::onEnd()` from part_000: first `_father->onInstrEnd()`;
then `RTKernel *k = dynamic_cast<RTKernel *>(_father->getKernel())`; if the
cast fails (`k == NULL`) it throws `BaseExc("Kernel not found!")`; otherwise
`k->disableThreshold(); k->dispatch(); _threEvt.process();`.

`hasRTKernel` is the success of the `dynamic_cast`.  The result is the
ordered log of calls performed, paired with `true` when the exception is
thrown. -/
def SchedInstr.onEnd (hasRTKernel : Bool) : List SIOp × Bool :=
  if hasRTKernel then
    ([SIOp.onInstrEnd, SIOp.disableThreshold, SIOp.dispatch, SIOp.threEvtProcess], false)
  else
    ([SIOp.onInstrEnd], true)

/-! ## PeriodicTask::createInstance (src/RTLIB/src/rttask.cpp, lines 15-29) -/

/-- The `vector<string>` indices that `PeriodicTask::createInstance` reads,
as a function of `par.size()`:
```
Tick i = Tick(par[0]); Tick d = Tick(par[1]); Tick p = Tick(par[2]);
if (par.size() > 2) n = par[3].c_str();
if (par.size() > 4) q = atoi(par[4].c_str());
if (par.size() > 5 && !strcmp(par[5].c_str(), "false")) a = false;
``` -/
def periodicTaskReads (size : Nat) : List Nat :=
  [0, 1, 2] ++ (if size > 2 then [3] else []) ++
    (if size > 4 then [4] else []) ++ (if size > 5 then [5] else [])

/-- Factory `PeriodicTask::createInstance(par)` with every `par[i]` replaced by the
checked access `par.get? i`: the result is `none` exactly when some read is
out of bounds, and otherwise the tuple of raw strings read
`(i, d, p, n, q, a-string)` with the defaults of the source
(`n = ""`, `q = "100"`, unset `a`-string modelled as `none`). -/
def PeriodicTask.createInstance (par : List String) :
    Option (String × String × String × String × String × Option String) := do
  let i ← par.get? 0
  let d ← par.get? 1
  let p ← par.get? 2
  let n ← if par.length > 2 then par.get? 3 else some ""
  let q ← if par.length > 4 then par.get? 4 else some "100"
  let a ← if par.length > 5 then (par.get? 5).map some else some none
  some (i, d, p, n, q, a)

end RTSim

namespace MetaSim

/-! ## Event (src/METASIM/src/event.hpp) and the simulation driver
(src/unnamed/part_001)

The bodies of `Event::Cmp::operator()`, `Event::post`, `Event::drop`,
`Event::process` and `Event::action` are in `event.cpp`, which is not part
of the given source tree; they are modelled from the specification (and
from the field documentation in event.hpp), as marked below.  Events are
identified by `id` (the C++ object identity); handlers (`doit()`
overrides) are modelled by a small command language acting on the event
itself, which is what the claims exercise. -/

/-- Constant `Event::_DEFAULT_PRIORITY = 8` (event.hpp). -/
def Event.DEFAULT_PRIORITY : Int := 8

/-- Constant `Event::_IMMEDIATE_PRIORITY = 0` (event.hpp). -/
def Event.IMMEDIATE_PRIORITY : Int := 0

/-- Commands a `doit()` handler body may perform on its own event. -/
inductive HCmd where
  | postSelf (t : Int) (disp : Bool)  -- `this->post(t, disp)`
  | dropSelf                          -- `this->drop()`
  | nop
  deriving Repr, DecidableEq

/-- The state of one `Event` object (fields of class `Event`,
event.hpp lines 119-170, plus the object identity `id` and the `doit()`
body `handler`).  The probe queues `_stats`, `_particles`, `_traces` are
kept as lists of probe identifiers. -/
structure Evt where
  id : Nat
  time : Int           -- `_time`
  lastTime : Int       -- `_lastTime`
  priority : Int       -- `_priority`
  stdPriority : Int    -- `_std_priority`
  order : Nat          -- `_order`
  isInQueue : Bool     -- `_isInQueue`
  disposable : Bool    -- `_disposable`
  stats : List Nat     -- `_stats`
  particles : List Nat -- `_particles`
  traces : List Nat    -- `_traces`
  handler : List HCmd  -- the `doit()` body
  deriving Repr, DecidableEq

/-- Modelled from the spec: `Event::Cmp::operator()` (event.cpp is not
under src/).  Strict weak order on events: by triggering time, then by
priority (smaller = higher), then by the FIFO insertion counter `_order`. -/
def cmpLt (e1 e2 : Evt) : Bool :=
  if e1.time ≠ e2.time then decide (e1.time < e2.time)
  else if e1.priority ≠ e2.priority then decide (e1.priority < e2.priority)
  else decide (e1.order < e2.order)

/-- Modelled from the spec: the `priority_list` insert (plist.hpp is not
under src/) — ordered insertion keeping the queue sorted by `cmpLt`, with
the front being the minimum. -/
def insertEvt (e : Evt) : List Evt → List Evt
  | [] => [e]
  | x :: xs => if cmpLt e x then e :: x :: xs else x :: insertEvt e xs

/-- The global mutable state behind the `Simulation` singleton and the
statics of `Event` / `BaseStat` / `RandomVar`:
`globTime` and `end` (part_001), `Event::counter` and `Event::_eventQueue`
(event.hpp), the argument of the last `BaseStat::init` call, and the state
of the default generator `RandomVar::_stdgen` (randomvar.cpp).
`probeLog` records every probe notification `(probe id, event id,
observed getLastTime())`, and `deleted` every `delete` of an event. -/
structure SimState where
  globTime : Int
  counter : Nat
  queue : List Evt
  probeLog : List (Nat × Nat × Int)
  deleted : List Nat
  statRuns : Option Int
  endFlag : Bool
  rng : RandomGen
  deriving Repr, DecidableEq

/-- Result of an operation that can throw, carrying the state at the point
of the throw (C++ exceptions do not roll state back). -/
inductive HRes where
  | ok (e : Evt) (s : SimState)
  | error (msg : String) (s : SimState)
  deriving Repr, DecidableEq

/-- Modelled from the spec: `Event::post(myTime, disp)` (event.cpp is not
under src/).  Fails if the event is already queued, or if `myTime` is in
the past; otherwise assigns a fresh insertion counter
(`_order = ++counter`), sets `_time`, `_disposable` and `_isInQueue`, and
inserts the event into the queue.  `_lastTime` is not touched. -/
def post (e : Evt) (myTime : Int) (disp : Bool) (s : SimState) : HRes :=
  if e.isInQueue then .error "Event already in queue" s
  else if myTime < s.globTime then .error "Cannot post an event in the past" s
  else
    let c := s.counter + 1
    let e' := { e with time := myTime, order := c, isInQueue := true, disposable := disp }
    .ok e' { s with counter := c, queue := insertEvt e' s.queue }

/-- Modelled from the spec: `Event::drop()` (event.cpp is not under src/).
Extracts the event from the queue if present (a no-op when not queued);
the event is not destroyed. -/
def dropEvt (e : Evt) (s : SimState) : Evt × SimState :=
  ({ e with isInQueue := false },
   { s with queue := s.queue.filter (fun x => x.id ≠ e.id) })

/-- Modelled from the spec: `Event::process(disp)` (event.cpp is not under
src/) — `post(globalTime, disp)` with the priority forced to
`_IMMEDIATE_PRIORITY` so the event fires before any other event at the
current instant (`restorePriority()` afterwards re-establishes
`_std_priority` on the object; the queue position is fixed at insertion). -/
def process (e : Evt) (disp : Bool) (s : SimState) : HRes :=
  post { e with priority := Event.IMMEDIATE_PRIORITY } s.globTime disp s

/-- One step of a `doit()` body. -/
def runCmd (e : Evt) (s : SimState) : HCmd → HRes
  | .postSelf t disp => post e t disp s
  | .dropSelf => let (e', s') := dropEvt e s; .ok e' s'
  | .nop => .ok e s

/-- A `doit()` body: the commands in order, stopping at the first throw. -/
def runHandler : List HCmd → Evt → SimState → HRes
  | [], e, s => .ok e s
  | c :: cs, e, s =>
    match runCmd e s c with
    | .ok e' s' => runHandler cs e' s'
    | .error m s' => .error m s'

/-- The notifications `action()` sends after the handler: each probe in
`_stats`, then `_particles`, then `_traces`, in insertion order, observes
the event — in particular its `getLastTime()`. -/
def notifyProbes (e : Evt) : List (Nat × Nat × Int) :=
  (e.stats ++ e.particles ++ e.traces).map (fun p => (p, e.id, e.lastTime))

/-- Modelled from the spec: `Event::action()` (event.cpp is not under
src/; event.hpp lines 282-298 document the behaviour).  Sets
`_lastTime := _time` and clears `_isInQueue`, invokes the subclass
handler `doit()` (which may re-post the event, altering `_time`), then
notifies the statistics, particle and trace probes, which read
`getLastTime()`. -/
def action (e : Evt) (s : SimState) : HRes :=
  match runHandler e.handler { e with lastTime := e.time, isInQueue := false } s with
  | .ok e2 s2 => .ok e2 { s2 with probeLog := s2.probeLog ++ notifyProbes e2 }
  | .error m s2 => .error m s2

/-! ## Simulation (src/unnamed/part_001) -/

/-- Result of `Simulation::sim_step()`: the returned tick, or the
`NoMoreEventsInQueue` throw, or an exception escaping the handler.  The
state at the respective point is carried along. -/
inductive StepRes where
  | ok (t : Int) (s : SimState)
  | noMoreEvents (s : SimState)
  | handlerExc (msg : String) (s : SimState)
  deriving Repr, DecidableEq

/-- Method `Simulation::sim_step()` from part_001 lines 57-83:
```
temp = Event::getFirst();
if (temp == NULL) throw NoMoreEventsInQueue();
temp->drop();
mytime = temp->getTime();
setTime(mytime);
temp->action();
if (temp->isDisposable()) delete temp;
return mytime;
```
`Event::getFirst()` (event.hpp lines 244-249) returns the front of the
queue, or NULL when empty.  `temp->drop()` is inlined as the queue
removal plus clearing `_isInQueue`, and `setTime(mytime)` as the
`globTime` update (`mytime = temp->getTime()` is the head's `_time`,
read before the handler runs). -/
def sim_step (s : SimState) : StepRes :=
  match s.queue with
  | [] => .noMoreEvents s
  | e :: _ =>
    match action { e with isInQueue := false }
        { s with queue := s.queue.filter (fun x => x.id ≠ e.id), globTime := e.time } with
    | .error m s3 => .handlerExc m s3
    | .ok e2 s3 =>
      if e2.disposable then .ok e.time { s3 with deleted := s3.deleted ++ [e2.id] }
      else .ok e.time s3

/-- Method `Simulation::getNextEventTime()` from part_001 lines 88-93: the time
of the first event in the queue, or the `NoMoreEventsInQueue` throw
(`none`). -/
def getNextEventTime (s : SimState) : Option Int :=
  match s.queue with
  | [] => none
  | e :: _ => some e.time

/-- Loop-exit outcome of the `while` loop of `run_to`. -/
inductive LoopRes where
  | exit (s : SimState) (diag : Bool)  -- `diag`: the NoMoreEvents diagnostic was printed
  | exc (msg : String) (s : SimState)  -- a handler exception escaped (not caught here)
  | fuelOut (s : SimState)             -- artificial bound: loop still running
  deriving Repr, DecidableEq

/-- The `try { while (getNextEventTime() <= stop) globTime = sim_step(); }
catch (NoMoreEventsInQueue&) { cerr << ...; }` loop of
`Simulation::run_to` (part_001 lines 100-114), bounded by `fuel`
iterations (the C++ loop can run forever when handlers keep re-posting). -/
def runToLoop (stop : Int) : Nat → SimState → LoopRes
  | 0, s => .fuelOut s
  | fuel + 1, s =>
    match getNextEventTime s with
    | none => .exit s true
    | some t =>
      if t ≤ stop then
        match sim_step s with
        | .ok _ s' => runToLoop stop fuel s'
        | .noMoreEvents s' => .exit s' true
        | .handlerExc m s' => .exc m s'
      else .exit s false

/-- Result of `Simulation::run_to`. -/
inductive RunRes where
  | done (ret : Int) (s : SimState) (diag : Bool)
  | exc (msg : String) (s : SimState)
  | fuelOut (s : SimState)
  deriving Repr, DecidableEq

/-- Method `Simulation::run_to(stop)` from part_001 lines 100-114: the loop
above, then `if (globTime < stop) globTime = stop; return globTime;`. -/
def run_to (stop : Int) (fuel : Nat) (s : SimState) : RunRes :=
  match runToLoop stop fuel s with
  | .exit s1 diag =>
    let s2 := if s1.globTime < stop then { s1 with globTime := stop } else s1
    .done s2.globTime s2 diag
  | .exc m s1 => .exc m s1
  | .fuelOut s1 => .fuelOut s1

/-- Method `Simulation::initRuns(nRuns)` from part_001 lines 117-122:
`BaseStat::init(nRuns); globTime = 0; end = false;`.  `BaseStat` is not
under src/; its `init` is modelled as recording the argument in
`statRuns`.  No field of the random generator is touched. -/
def initRuns (nRuns : Int) (s : SimState) : SimState :=
  { s with statRuns := some nRuns, globTime := 0, endFlag := false }

/-- Method `Simulation::clearEventQueue()` from part_001 lines 217-226: drops
every event in the queue in order, deleting the disposable ones, then
resets `globTime` to 0. -/
def clearEventQueue (s : SimState) : SimState :=
  { s with
    queue := []
    deleted := s.deleted ++ (s.queue.filter (fun e => e.disposable)).map (fun e => e.id)
    globTime := 0 }

/-- Method `Simulation::initSingleRun()` from part_001 lines 124-134:
`globTime = 0; Entity::callNewRun(); BaseStat::newRun();`.  The entity
hooks and `BaseStat::newRun` are client/statistics code not under src/;
neither touches the random generator, so they are modelled as the
identity on the remaining state. -/
def initSingleRun (s : SimState) : SimState :=
  { s with globTime := 0 }

/-- Method `Simulation::endSingleRun()` from part_001 lines 136-142:
`Entity::callEndRun(); BaseStat::endRun(); clearEventQueue();` (hooks
modelled as above). -/
def endSingleRun (s : SimState) : SimState :=
  clearEventQueue s

/-- The batch-control decode of `Simulation::run` (part_001 lines
147-213): the local flags `initializeRuns` / `terminateSim` and the
member `numRuns` after the `nRuns` dispatch and the `numRuns == 2`
correction.  Note that in the `nRuns < -1` branch the source also executes
`nRuns = -nRuns;`, but that local value is never read again: `numRuns`
was already set to 1 and `initRuns(numRuns)` is called with `numRuns`. -/
structure RunCfg where
  initializeRuns : Bool
  terminateSim : Bool
  numRuns : Int
  deriving Repr, DecidableEq

/-- The decode itself, mirroring the `if`/`else if` chain of
`Simulation::run` and the `numRuns == 2` warning branch. -/
def runConfig (nRuns : Int) : RunCfg :=
  let c : RunCfg :=
    if nRuns < -1 then ⟨true, false, 1⟩
    else if nRuns = -1 then ⟨false, false, 1⟩
    else if nRuns = 0 then ⟨false, true, 1⟩
    else if nRuns = 1 then ⟨true, true, 1⟩
    else ⟨true, true, nRuns⟩
  if c.numRuns = 2 then { c with numRuns := 3 } else c

/-- The argument `Simulation::run` passes to `BaseStat::init` (through
`initRuns(numRuns)`), or `none` when `initializeRuns` is false and
`initRuns` is not called. -/
def runStatInitArg (nRuns : Int) : Option Int :=
  if (runConfig nRuns).initializeRuns then some (runConfig nRuns).numRuns else none

/-- The number of replicas the `while (actRuns < numRuns)` loop of
`Simulation::run` executes. -/
def runReplicas (nRuns : Int) : Nat :=
  (runConfig nRuns).numRuns.toNat

/-- Well-formedness of the global queue: it is sorted by `Event::Cmp`
(the `priority_list` invariant) and every queued event's insertion
counter is at most the global `Event::counter`. -/
def QueueWF (s : SimState) : Prop :=
  s.queue.Pairwise (fun u v => cmpLt u v = true) ∧ ∀ x ∈ s.queue, x.order ≤ s.counter

/-- Frame relation of a handler step: the fields of the event and of the
global state that no `doit()` command (`post`, `drop`) can change. -/
def FrameOK (e : Evt) (s : SimState) (e2 : Evt) (s2 : SimState) : Prop :=
  e2.lastTime = e.lastTime ∧ e2.id = e.id ∧ e2.stats = e.stats ∧
  e2.particles = e.particles ∧ e2.traces = e.traces ∧
  s2.globTime = s.globTime ∧ s2.deleted = s.deleted ∧
  s2.probeLog = s.probeLog ∧ s2.rng = s.rng

end MetaSim

namespace MetaSim

/-! # Theorems -/

/-- Helper: the Schrage intermediate value `A*(x % Q) - R*(x / Q)` lies
strictly between `-M` and `M` whenever `0 ≤ x < M`. -/
lemma sample_core_bounds (x : Int) (h0 : 0 ≤ x) (hM : x < RandomGen.M) :
    -RandomGen.M < RandomGen.A * (x % RandomGen.Q) - RandomGen.R * (x / RandomGen.Q) ∧
    RandomGen.A * (x % RandomGen.Q) - RandomGen.R * (x / RandomGen.Q) < RandomGen.M := by
  have hQ : (0 : Int) < RandomGen.Q := by decide
  have hr0 : 0 ≤ x % RandomGen.Q := Int.emod_nonneg x (by decide)
  have hrQ : x % RandomGen.Q < RandomGen.Q := Int.emod_lt_of_pos x hQ
  have hq0 : 0 ≤ x / RandomGen.Q := Int.ediv_nonneg h0 (le_of_lt hQ)
  have hq1 : x / RandomGen.Q ≤ 16807 := by
    have h1 : x / RandomGen.Q ≤ (RandomGen.M - 1) / RandomGen.Q :=
      Int.ediv_le_ediv hQ (by omega)
    have h2 : (RandomGen.M - 1) / RandomGen.Q = 16807 := by decide
    omega
  simp only [RandomGen.A, RandomGen.R, RandomGen.M, RandomGen.Q] at *
  constructor <;> nlinarith

/-- Helper: a conditional `+M` correction of a value in `(-M, M)` is the
Euclidean remainder modulo `M`. -/
lemma cond_add_eq_emod (v m : Int) (h1 : -m < v) (h2 : v < m) :
    (if v < 0 then v + m else v) = v % m := by
  split_ifs with h
  · have he : (v + m) % m = v + m := Int.emod_eq_of_lt (by omega) (by omega)
    calc v + m = (v + m) % m := he.symm
    _ = v % m := by simp [Int.add_mul_emod_self_left v m 1]
  · exact (Int.emod_eq_of_lt (by omega) h2).symm

/-- C7: `RandomGen::sample` advances the state by the Park-Miller
recurrence `x' = (A*(x % Q) - R*(x / Q)) % M` with `A = 16807`,
`M = 2147483647`, `Q = 127773`, `R = 2836`, returns the new state (the
stored seed is untouched), and from seed 1 the first five outputs are
`16807, 282475249, 1622650073, 984943658, 1144108930`. -/
theorem sample_parkMiller (g : RandomGen) (h0 : 0 ≤ g.xn) (hM : g.xn < RandomGen.M) :
    (g.sample.1 =
        (RandomGen.A * (g.xn % RandomGen.Q) - RandomGen.R * (g.xn / RandomGen.Q)) % RandomGen.M
      ∧ g.sample.2.xn = g.sample.1 ∧ g.sample.2.seed = g.seed)
    ∧ (RandomGen.sampleSeq (RandomGen.mk' 1) 5).1 =
        [16807, 282475249, 1622650073, 984943658, 1144108930] := by
  have hb := sample_core_bounds g.xn h0 hM
  refine ⟨⟨?_, rfl, rfl⟩, by decide⟩
  have hs : g.sample.1 =
      (if (RandomGen.A * (g.xn % RandomGen.Q) - RandomGen.R * (g.xn / RandomGen.Q)) < 0 then
        RandomGen.A * (g.xn % RandomGen.Q) - RandomGen.R * (g.xn / RandomGen.Q) + RandomGen.M
      else RandomGen.A * (g.xn % RandomGen.Q) - RandomGen.R * (g.xn / RandomGen.Q)) := rfl
  rw [hs, cond_add_eq_emod _ _ hb.1 hb.2]

/-- Witness for C7 at the generator freshly seeded with 1. -/
theorem sample_parkMiller_witness :
    (0 : Int) ≤ (RandomGen.mk' 1).xn ∧ (RandomGen.mk' 1).xn < RandomGen.M ∧
    (RandomGen.mk' 1).sample.1 =
      (RandomGen.A * ((RandomGen.mk' 1).xn % RandomGen.Q) -
        RandomGen.R * ((RandomGen.mk' 1).xn / RandomGen.Q)) % RandomGen.M :=
  ⟨by decide, by decide,
    ((sample_parkMiller (RandomGen.mk' 1) (by decide) (by decide)).1).1⟩

/-- Helper: the outputs of `sampleSeq` depend only on the current state
`_xn`, not on the stored `_seed`. -/
lemma sampleSeq_ext (n : Nat) : ∀ g1 g2 : RandomGen, g1.xn = g2.xn →
    (RandomGen.sampleSeq g1 n).1 = (RandomGen.sampleSeq g2 n).1 ∧
    (RandomGen.sampleSeq g1 n).2.xn = (RandomGen.sampleSeq g2 n).2.xn := by
  induction n with
  | zero => exact fun g1 g2 h => ⟨rfl, h⟩
  | succ n ih =>
    intro g1 g2 h
    have hs : g1.sample.1 = g2.sample.1 := by simp [RandomGen.sample, h]
    have hx : g1.sample.2.xn = g2.sample.2.xn := by simp [RandomGen.sample, h]
    simp only [RandomGen.sampleSeq]
    exact ⟨by rw [hs, (ih _ _ hx).1], (ih _ _ hx).2⟩

/-- C6: neither `initRuns` nor the per-replica operations of `run`
(`initSingleRun`, `endSingleRun`) touch the random generator, so the
generator state at the end of one replica is the state the next starts
from; and two `RandomGen` objects constructed or `init`-ed with the same
seed produce identical sample sequences. -/
theorem rng_persists_across_runs :
    (∀ (n : Int) (s : SimState), (initRuns n s).rng = s.rng)
  ∧ (∀ s : SimState, (initSingleRun s).rng = s.rng)
  ∧ (∀ s : SimState, (endSingleRun s).rng = s.rng)
  ∧ (∀ (sd : Int) (n : Nat),
      (RandomGen.sampleSeq (RandomGen.mk' sd) n).1 =
        (RandomGen.sampleSeq (RandomGen.init sd) n).1)
  ∧ (∀ (g1 g2 : RandomGen) (n : Nat), g1.xn = g2.xn →
      (RandomGen.sampleSeq g1 n).1 = (RandomGen.sampleSeq g2 n).1) :=
  ⟨fun _ _ => rfl, fun _ => rfl, fun _ => rfl, fun _ _ => rfl,
    fun g1 g2 n h => (sampleSeq_ext n g1 g2 h).1⟩

/-- Witness for C6: two generators with equal current state emit the same
first three samples. -/
theorem rng_persists_across_runs_witness :
    (RandomGen.mk 1 42).xn = (RandomGen.mk 7 42).xn ∧
    (RandomGen.sampleSeq (RandomGen.mk 1 42) 3).1 =
      (RandomGen.sampleSeq (RandomGen.mk 7 42) 3).1 :=
  ⟨rfl, rng_persists_across_runs.2.2.2.2 (RandomGen.mk 1 42) (RandomGen.mk 7 42) 3 rfl⟩

/-- C5 counterexample: for `nRuns = -5` the argument `run` passes to the
statistics initialization is `numRuns = 1`, not `|nRuns| = 5` (the
source's `nRuns = -nRuns;` assignment is dead). -/
theorem run_allocHint_cex :
    runStatInitArg (-5) = some 1 ∧ runStatInitArg (-5) ≠ some 5 := by decide

/-- C5 (amended): the `nRuns` batch-control decode of `Simulation::run`:
`nRuns ≥ 3` runs that many replicas with statistics initialization and
termination; `nRuns = 2` is corrected to 3 replicas; `1` one replica with
both; `0` one replica without re-initialization but with termination;
`-1` one replica with neither; `nRuns < -1` one replica that initializes
statistics and does not terminate — the allocation argument passed to the
statistics initialization being `numRuns = 1`, not `|nRuns|`. -/
theorem run_nRuns_decode :
    (∀ n : Int, 3 ≤ n →
      runConfig n = ⟨true, true, n⟩ ∧ runReplicas n = n.toNat ∧ runStatInitArg n = some n)
  ∧ (runConfig 2 = ⟨true, true, 3⟩ ∧ runReplicas 2 = 3 ∧ runStatInitArg 2 = some 3)
  ∧ (runConfig 1 = ⟨true, true, 1⟩ ∧ runReplicas 1 = 1)
  ∧ (runConfig 0 = ⟨false, true, 1⟩ ∧ runReplicas 0 = 1 ∧ runStatInitArg 0 = none)
  ∧ (runConfig (-1) = ⟨false, false, 1⟩ ∧ runStatInitArg (-1) = none)
  ∧ (∀ n : Int, n < -1 →
      runConfig n = ⟨true, false, 1⟩ ∧ runReplicas n = 1 ∧ runStatInitArg n = some 1) := by
  refine ⟨?_, by decide, by decide, by decide, by decide, ?_⟩
  · intro n hn
    have h1 : ¬ n < -1 := by omega
    have h2 : ¬ n = -1 := by omega
    have h3 : ¬ n = 0 := by omega
    have h4 : ¬ n = 1 := by omega
    have h5 : ¬ n = 2 := by omega
    simp [runConfig, runReplicas, runStatInitArg, h1, h2, h3, h4, h5]
  · intro n hn
    have h1 : n < -1 := hn
    simp [runConfig, runReplicas, runStatInitArg, h1]

/-- Witness for C5 at `nRuns = 5` and `nRuns = -5`. -/
theorem run_nRuns_decode_witness :
    ((3 : Int) ≤ 5 ∧ runConfig 5 = ⟨true, true, 5⟩) ∧
    ((-5 : Int) < -1 ∧ runStatInitArg (-5) = some 1) :=
  ⟨⟨by decide, (run_nRuns_decode.1 5 (by decide)).1⟩,
   ⟨by decide, (run_nRuns_decode.2.2.2.2.2 (-5) (by decide)).2.2⟩⟩

/-- C8: `SchedInstr::onEnd` first calls `_father->onInstrEnd()`, throws
when the task's kernel is not an `RTKernel`, and otherwise calls
`disableThreshold()`, then `dispatch()`, and only then
`_threEvt.process()` — and a successful `process` enqueues the event at
the current tick with `_IMMEDIATE_PRIORITY`. -/
theorem schedInstr_onEnd_order :
    (RTSim.SchedInstr.onEnd true =
      ([RTSim.SIOp.onInstrEnd, RTSim.SIOp.disableThreshold,
        RTSim.SIOp.dispatch, RTSim.SIOp.threEvtProcess], false))
  ∧ (RTSim.SchedInstr.onEnd false = ([RTSim.SIOp.onInstrEnd], true))
  ∧ ((RTSim.SchedInstr.onEnd true).1.indexOf RTSim.SIOp.dispatch <
      (RTSim.SchedInstr.onEnd true).1.indexOf RTSim.SIOp.threEvtProcess)
  ∧ ((RTSim.SchedInstr.onEnd true).1.indexOf RTSim.SIOp.onInstrEnd <
      (RTSim.SchedInstr.onEnd true).1.indexOf RTSim.SIOp.disableThreshold)
  ∧ (∀ (e : Evt) (disp : Bool) (s : SimState) (e2 : Evt) (s2 : SimState),
      process e disp s = HRes.ok e2 s2 →
      e2.time = s.globTime ∧ e2.priority = Event.IMMEDIATE_PRIORITY ∧
        e2.isInQueue = true) := by
  refine ⟨by decide, by decide, by decide, by decide, ?_⟩
  intro e disp s e2 s2 h
  unfold process post at h
  split_ifs at h with h1 h2
  simp only [HRes.ok.injEq] at h
  obtain ⟨he, hs2⟩ := h
  subst he
  exact ⟨rfl, rfl, rfl⟩

/-- Witness for C8: a concrete successful `process`. -/
theorem schedInstr_onEnd_order_witness :
    process ⟨3, 0, 0, 8, 8, 0, false, false, [], [], [], []⟩ false
        ⟨6, 0, [], [], [], none, false, ⟨1, 1⟩⟩ =
      HRes.ok ⟨3, 6, 0, 0, 8, 1, true, false, [], [], [], []⟩
        ⟨6, 1, [⟨3, 6, 0, 0, 8, 1, true, false, [], [], [], []⟩], [], [], none, false, ⟨1, 1⟩⟩ ∧
    (⟨3, 6, 0, 0, 8, 1, true, false, [], [], [], []⟩ : Evt).time = 6 :=
  ⟨by decide,
    (schedInstr_onEnd_order.2.2.2.2 ⟨3, 0, 0, 8, 8, 0, false, false, [], [], [], []⟩ false
      ⟨6, 0, [], [], [], none, false, ⟨1, 1⟩⟩
      ⟨3, 6, 0, 0, 8, 1, true, false, [], [], [], []⟩
      ⟨6, 1, [⟨3, 6, 0, 0, 8, 1, true, false, [], [], [], []⟩], [], [], none, false, ⟨1, 1⟩⟩
      (by decide)).1⟩

/-- C9: `PeriodicTask::createInstance` reads `par[0]`, `par[1]`, `par[2]`
unconditionally and `par[3]` exactly under the guard `par.size() > 2`;
that read is in bounds only when `par.size() ≥ 4`, so a call with exactly
three parameters reads out of bounds under the guard. -/
theorem periodicTask_par3_oob :
    (∀ n : Nat, 0 ∈ RTSim.periodicTaskReads n ∧ 1 ∈ RTSim.periodicTaskReads n ∧
      2 ∈ RTSim.periodicTaskReads n)
  ∧ (∀ n : Nat, 3 ∈ RTSim.periodicTaskReads n ↔ 2 < n)
  ∧ (∀ n : Nat, (3 ∈ RTSim.periodicTaskReads n ∧ 3 < n) ↔ 4 ≤ n)
  ∧ (3 ∈ RTSim.periodicTaskReads 3 ∧ ¬ (3 < 3))
  ∧ (∀ par : List String, par.length = 3 → RTSim.PeriodicTask.createInstance par = none)
  ∧ (∀ par : List String, par.length = 4 →
      (RTSim.PeriodicTask.createInstance par).isSome = true) := by
  refine ⟨?_, ?_, ?_, by decide, ?_, ?_⟩
  · intro n
    refine ⟨?_, ?_, ?_⟩ <;> simp [RTSim.periodicTaskReads]
  · intro n
    simp only [RTSim.periodicTaskReads, List.mem_append, List.mem_cons]
    split_ifs with h1 h2 h3 <;> simp <;> omega
  · intro n
    simp only [RTSim.periodicTaskReads, List.mem_append, List.mem_cons]
    split_ifs with h1 h2 h3 <;> simp <;> omega
  · intro par h
    obtain ⟨a, b, c, rfl⟩ := List.length_eq_three.mp h
    rfl
  · intro par h
    match par, h with
    | [a, b, c, d], _ => rfl

/-- Witness for C9 at `par.size() = 3` (membership conjunct and concrete
out-of-bounds call). -/
theorem periodicTask_par3_oob_witness :
    (["1", "2", "3"] : List String).length = 3 ∧
    RTSim.PeriodicTask.createInstance ["1", "2", "3"] = none :=
  ⟨rfl, periodicTask_par3_oob.2.2.2.2.1 ["1", "2", "3"] rfl⟩


/-- Helper: successor of a residue modulo `n`. -/
lemma detvar_mod_succ (j n : Nat) (hn : 0 < n) :
    (j + 1) % n = if j % n + 1 = n then 0 else j % n + 1 := by
  rw [Nat.add_mod]
  split_ifs with h
  · rcases Nat.lt_or_ge 1 n with h2 | h2
    · rw [Nat.mod_eq_of_lt h2, h, Nat.mod_self]
    · have hn1 : n = 1 := by omega
      subst hn1
      omega
  · have hjn : j % n < n := Nat.mod_lt j hn
    have hlt : j % n + 1 < n := by omega
    have h2 : 1 < n := by omega
    rw [Nat.mod_eq_of_lt h2, Nat.mod_eq_of_lt hlt]

/-- Helper: the cursor after one `get()`. -/
lemma detVar_get_count (d : DetVar α) :
    (d.get).2.count = (if d.count ≥ d.array.length then 0 else d.count) + 1 := rfl

/-- Helper: the value returned by one `get()`. -/
lemma detVar_get_fst (d : DetVar α) :
    (d.get).1 = d.array.get? (if d.count ≥ d.array.length then 0 else d.count) := rfl

/-- Helper: `DetVar.run` never changes the stored array. -/
lemma detVar_run_array (d : DetVar α) : ∀ k, (d.run k).array = d.array := by
  intro k
  induction k with
  | zero => rfl
  | succ k ih =>
    show ((d.run k).get).2.array = d.array
    rw [show ((d.run k).get).2.array = (d.run k).array from rfl, ih]

/-- Helper: after `k+1` calls of `get()` on a fresh `DetVar` over a
non-empty array, the cursor is `k % n + 1`. -/
lemma detVar_run_count (a : List α) (hn : 1 ≤ a.length) :
    ∀ k, ((DetVar.ofList a).run (k + 1)).count = k % a.length + 1 := by
  intro k
  induction k with
  | zero =>
    show ((DetVar.ofList a).get).2.count = 0 % a.length + 1
    rw [detVar_get_count, Nat.zero_mod]
    have : ¬ ((DetVar.ofList a).count ≥ (DetVar.ofList a).array.length) := by
      show ¬ (0 ≥ a.length)
      omega
    rw [if_neg this]
    rfl
  | succ k ih =>
    show (((DetVar.ofList a).run (k + 1)).get).2.count = (k + 1) % a.length + 1
    rw [detVar_get_count, ih, detVar_run_array (DetVar.ofList a) (k + 1)]
    rw [show (DetVar.ofList a).array = a from rfl]
    rw [detvar_mod_succ k a.length (by omega)]
    have hjn : k % a.length < a.length := Nat.mod_lt k (by omega)
    split_ifs with h1 h2 h3 <;> omega

/-- Helper: the index used by the `(k+1)`-th call is `k mod n` on a
non-empty array. -/
lemma detIndexUsed_eq_mod (a : List α) (hn : 1 ≤ a.length) (k : Nat) :
    detIndexUsed a k = k % a.length := by
  cases k with
  | zero =>
    show (if (DetVar.ofList a).count ≥ (DetVar.ofList a).array.length
      then 0 else (DetVar.ofList a).count) = 0 % a.length
    rw [Nat.zero_mod, show (DetVar.ofList a).count = 0 from rfl]
    split_ifs <;> rfl
  | succ j =>
    have hc := detVar_run_count a hn j
    have harr := detVar_run_array (DetVar.ofList a) (j + 1)
    have hjn : j % a.length < a.length := Nat.mod_lt j (by omega)
    show (if ((DetVar.ofList a).run (j + 1)).count ≥ ((DetVar.ofList a).run (j + 1)).array.length
      then 0 else ((DetVar.ofList a).run (j + 1)).count) = (j + 1) % a.length
    rw [hc, harr, show (DetVar.ofList a).array = a from rfl,
      detvar_mod_succ j a.length (by omega)]
    split_ifs with h1 h2 h3 <;> omega

/-- C10: `DetVar::get` replays the stored sequence cyclically — on a
sequence of length `n ≥ 1` the call with 0-based index `k` (the
`(k+1)`-th call) reads index `k % n`, returning that element and never
failing; on the empty sequence the wrap check does not guard emptiness,
the index read is 0, and the access `_array[0]` is out of bounds
(`none`). -/
theorem detVar_cyclic_replay :
    (∀ (α : Type) (a : List α) (k : Nat), 1 ≤ a.length →
      detIndexUsed a k = k % a.length ∧ detSeq a k = a.get? (k % a.length) ∧
        (detSeq a k).isSome = true)
  ∧ (∀ (α : Type) (k : Nat),
      detIndexUsed ([] : List α) k = 0 ∧ detSeq ([] : List α) k = none) := by
  constructor
  · intro α a k hn
    have harr : ((DetVar.ofList a).run k).array = a := detVar_run_array (DetVar.ofList a) k
    have hidx := detIndexUsed_eq_mod a hn k
    have hseq : detSeq a k = a.get? (k % a.length) := by
      show (((DetVar.ofList a).run k).get).1 = a.get? (k % a.length)
      rw [detVar_get_fst, harr]
      have : (if ((DetVar.ofList a).run k).count ≥ a.length
          then 0 else ((DetVar.ofList a).run k).count) = detIndexUsed a k := by
        rw [show detIndexUsed a k = (if ((DetVar.ofList a).run k).count ≥
          ((DetVar.ofList a).run k).array.length
          then 0 else ((DetVar.ofList a).run k).count) from rfl, harr]
      rw [this, hidx]
    refine ⟨hidx, hseq, ?_⟩
    rw [hseq]
    have hlt : k % a.length < a.length := Nat.mod_lt k (by omega)
    simp [List.get?_eq_getElem?, List.getElem?_eq_getElem hlt]
  · intro α k
    have harr : ((DetVar.ofList ([] : List α)).run k).array = [] :=
      detVar_run_array (DetVar.ofList ([] : List α)) k
    have hidx : detIndexUsed ([] : List α) k = 0 := by
      show (if ((DetVar.ofList ([] : List α)).run k).count ≥
        ((DetVar.ofList ([] : List α)).run k).array.length
        then 0 else ((DetVar.ofList ([] : List α)).run k).count) = 0
      rw [harr]
      simp
    refine ⟨hidx, ?_⟩
    show (((DetVar.ofList ([] : List α)).run k).get).1 = none
    rw [detVar_get_fst, harr]
    simp

/-- Witness for C10 on the three-element sequence, eighth call. -/
theorem detVar_cyclic_replay_witness :
    1 ≤ ([10, 20, 30] : List Int).length ∧
    detSeq [10, 20, 30] 7 = ([10, 20, 30] : List Int).get? (7 % 3) :=
  ⟨by decide, (detVar_cyclic_replay.1 Int [10, 20, 30] 7 (by decide)).2.1⟩

/-- Helper: `cmpLt` is the strict lexicographic order on
`(time, priority, order)`. -/
lemma cmpLt_iff (a b : Evt) : cmpLt a b = true ↔
    (a.time < b.time ∨ (a.time = b.time ∧ (a.priority < b.priority ∨
      (a.priority = b.priority ∧ a.order < b.order)))) := by
  unfold cmpLt
  split_ifs with h1 h2
  · simp [h1]
  · rw [not_ne_iff] at h1
    simp [h1, h2]
  · rw [not_ne_iff] at h1 h2
    simp [h1, h2]

/-- Helper: membership after an ordered insertion. -/
lemma mem_insertEvt (e y : Evt) : ∀ l : List Evt, y ∈ insertEvt e l ↔ y = e ∨ y ∈ l := by
  intro l
  induction l with
  | nil => simp [insertEvt]
  | cons x xs ih =>
    unfold insertEvt
    split_ifs with h
    · simp only [List.mem_cons]
    · simp only [List.mem_cons, ih]
      tauto

/-- Helper: ordered insertion preserves sortedness when the new element is
comparable with every element of the list. -/
lemma insertEvt_pairwise (e : Evt) :
    ∀ l : List Evt, (∀ x ∈ l, cmpLt e x = true ∨ cmpLt x e = true) →
    l.Pairwise (fun u v => cmpLt u v = true) →
    (insertEvt e l).Pairwise (fun u v => cmpLt u v = true) := by
  intro l
  induction l with
  | nil => intro _ _; simp [insertEvt]
  | cons x xs ih =>
    intro hcomp hp
    rw [List.pairwise_cons] at hp
    unfold insertEvt
    split_ifs with hex
    · refine List.Pairwise.cons ?_ (List.Pairwise.cons hp.1 hp.2)
      intro y hy
      rcases List.mem_cons.mp hy with rfl | hy'
      · exact hex
      · -- cmpLt e x and cmpLt x y give cmpLt e y by transitivity
        have hxy := hp.1 y hy'
        rw [cmpLt_iff] at hex hxy ⊢
        omega
    · refine List.Pairwise.cons ?_ (ih ?_ hp.2)
      · intro y hy
        rcases (mem_insertEvt e y xs).mp hy with hye | hy'
        · subst hye
          rcases hcomp x (List.mem_cons_self x xs) with h | h
          · exact absurd h hex
          · exact h
        · exact hp.1 y hy'
      · intro z hz
        exact hcomp z (List.mem_cons_of_mem x hz)

/-- C2: the queue order is the strict lexicographic order on
`(time, priority, order)` — total on events with distinct insertion
counters and asymmetric; at equal time and priority the smaller (earlier)
counter compares first; `post` assigns a fresh counter `counter + 1` and
preserves the queue well-formedness; and in a well-formed (sorted) queue
an event with the same time and priority as another but a smaller counter
sits strictly closer to the front, hence fires first. -/
theorem eventQueue_fifo_order :
    (∀ a b : Evt, a.time = b.time → a.priority = b.priority → a.order < b.order →
      cmpLt a b = true)
  ∧ (∀ a b : Evt, a.order ≠ b.order → cmpLt a b = true ∨ cmpLt b a = true)
  ∧ (∀ a b : Evt, cmpLt a b = true → cmpLt b a = false)
  ∧ (∀ (e : Evt) (t : Int) (d : Bool) (s : SimState) (e2 : Evt) (s2 : SimState),
      post e t d s = HRes.ok e2 s2 →
      e2.order = s.counter + 1 ∧ s2.counter = s.counter + 1 ∧
        (QueueWF s → QueueWF s2))
  ∧ (∀ (l : List Evt) (a b : Evt), l.Pairwise (fun u v => cmpLt u v = true) →
      a ∈ l → b ∈ l → a.time = b.time → a.priority = b.priority →
      a.order < b.order → l.indexOf a < l.indexOf b) := by
  have htie : ∀ a b : Evt, a.time = b.time → a.priority = b.priority →
      a.order < b.order → cmpLt a b = true := by
    intro a b ht hp ho
    rw [cmpLt_iff]
    omega
  have hasymm : ∀ a b : Evt, cmpLt a b = true → cmpLt b a = false := by
    intro a b h
    rw [cmpLt_iff] at h
    rw [Bool.eq_false_iff, Ne, cmpLt_iff]
    omega
  have htotal : ∀ a b : Evt, a.order ≠ b.order → cmpLt a b = true ∨ cmpLt b a = true := by
    intro a b h
    rw [cmpLt_iff, cmpLt_iff]
    omega
  refine ⟨htie, htotal, hasymm, ?_, ?_⟩
  · intro e t d s e2 s2 h
    unfold post at h
    split_ifs at h with h1 h2
    simp only [HRes.ok.injEq] at h
    obtain ⟨he, hs⟩ := h
    subst he
    subst hs
    refine ⟨rfl, rfl, ?_⟩
    rintro ⟨hpw, hord⟩
    constructor
    · apply insertEvt_pairwise
      · intro x hx
        apply htotal
        have := hord x hx
        simp only []
        omega
      · exact hpw
    · intro x hx
      rcases (mem_insertEvt _ x s.queue).mp hx with rfl | hx'
      · simp
      · have := hord x hx'
        simp only []
        omega
  · intro l a b hpw ha hb ht hp ho
    have hab : cmpLt a b = true := htie a b ht hp ho
    have hba : cmpLt b a = false := hasymm a b hab
    have hne : a ≠ b := by
      intro hcontra
      rw [hcontra] at ho
      exact absurd ho (lt_irrefl _)
    have hia : l.indexOf a < l.length := List.indexOf_lt_length.mpr ha
    have hib : l.indexOf b < l.length := List.indexOf_lt_length.mpr hb
    have hga : l.get ⟨l.indexOf a, hia⟩ = a := List.indexOf_get hia
    have hgb : l.get ⟨l.indexOf b, hib⟩ = b := List.indexOf_get hib
    rcases Nat.lt_trichotomy (l.indexOf a) (l.indexOf b) with h | h | h
    · exact h
    · exfalso
      apply hne
      rw [← hga, ← hgb]
      congr 1
      exact Fin.ext h
    · exfalso
      have := List.pairwise_iff_get.mp hpw ⟨l.indexOf b, hib⟩ ⟨l.indexOf a, hia⟩
        (Fin.mk_lt_mk.mpr h)
      rw [hga, hgb] at this
      rw [hba] at this
      exact Bool.false_ne_true this

/-- Witness for C2: two concrete events tied on time and priority with
counters 1 < 2 compare in posting order. -/
theorem eventQueue_fifo_order_witness :
    (⟨1, 10, 0, 8, 8, 1, true, false, [], [], [], []⟩ : Evt).time =
      (⟨2, 10, 0, 8, 8, 2, true, false, [], [], [], []⟩ : Evt).time ∧
    cmpLt ⟨1, 10, 0, 8, 8, 1, true, false, [], [], [], []⟩
      ⟨2, 10, 0, 8, 8, 2, true, false, [], [], [], []⟩ = true :=
  ⟨rfl, eventQueue_fifo_order.1
    ⟨1, 10, 0, 8, 8, 1, true, false, [], [], [], []⟩
    ⟨2, 10, 0, 8, 8, 2, true, false, [], [], [], []⟩ rfl rfl (by decide)⟩

/-- Helper: `FrameOK` is reflexive. -/
lemma FrameOK_refl (e : Evt) (s : SimState) : FrameOK e s e s :=
  ⟨rfl, rfl, rfl, rfl, rfl, rfl, rfl, rfl, rfl⟩

/-- Helper: `FrameOK` composes. -/
lemma FrameOK_trans (e : Evt) (s : SimState) (e1 : Evt) (s1 : SimState)
    (e2 : Evt) (s2 : SimState) (h1 : FrameOK e s e1 s1) (h2 : FrameOK e1 s1 e2 s2) :
    FrameOK e s e2 s2 :=
  ⟨h2.1.trans h1.1, h2.2.1.trans h1.2.1, h2.2.2.1.trans h1.2.2.1,
   h2.2.2.2.1.trans h1.2.2.2.1, h2.2.2.2.2.1.trans h1.2.2.2.2.1,
   h2.2.2.2.2.2.1.trans h1.2.2.2.2.2.1, h2.2.2.2.2.2.2.1.trans h1.2.2.2.2.2.2.1,
   h2.2.2.2.2.2.2.2.1.trans h1.2.2.2.2.2.2.2.1,
   h2.2.2.2.2.2.2.2.2.trans h1.2.2.2.2.2.2.2.2⟩

/-- Helper: a single handler command preserves the frame. -/
lemma runCmd_ok_frame (e : Evt) (s : SimState) (c : HCmd) (e2 : Evt) (s2 : SimState)
    (h : runCmd e s c = HRes.ok e2 s2) : FrameOK e s e2 s2 := by
  cases c with
  | postSelf t disp =>
    simp only [runCmd] at h
    unfold post at h
    split at h
    · simp at h
    · split at h
      · simp at h
      · simp only [HRes.ok.injEq] at h
        obtain ⟨he, hs⟩ := h
        subst he
        subst hs
        exact ⟨rfl, rfl, rfl, rfl, rfl, rfl, rfl, rfl, rfl⟩
  | dropSelf =>
    have h2 : HRes.ok { e with isInQueue := false }
        { s with queue := s.queue.filter (fun x => x.id ≠ e.id) } = HRes.ok e2 s2 := h
    simp only [HRes.ok.injEq] at h2
    obtain ⟨he, hs⟩ := h2
    subst he
    subst hs
    exact ⟨rfl, rfl, rfl, rfl, rfl, rfl, rfl, rfl, rfl⟩
  | nop =>
    simp only [runCmd, HRes.ok.injEq] at h
    obtain ⟨he, hs⟩ := h
    subst he
    subst hs
    exact FrameOK_refl e s

/-- Helper: a whole handler body preserves the frame. -/
lemma runHandler_ok_frame :
    ∀ (cs : List HCmd) (e : Evt) (s : SimState) (e2 : Evt) (s2 : SimState),
    runHandler cs e s = HRes.ok e2 s2 → FrameOK e s e2 s2 := by
  intro cs
  induction cs with
  | nil =>
    intro e s e2 s2 h
    unfold runHandler at h
    simp only [HRes.ok.injEq] at h
    obtain ⟨he, hs⟩ := h
    subst he
    subst hs
    exact FrameOK_refl e s
  | cons c cs ih =>
    intro e s e2 s2 h
    unfold runHandler at h
    cases hc : runCmd e s c with
    | ok em sm =>
      rw [hc] at h
      exact FrameOK_trans e s em sm e2 s2 (runCmd_ok_frame e s c em sm hc) (ih em sm e2 s2 h)
    | error m sm =>
      rw [hc] at h
      simp at h

/-- Helper: what a successful `action()` does: freezes `lastTime` at the
firing `_time`, leaves the probe queues, the identity, `globTime`,
`deleted` and the generator unchanged, and appends exactly the probe
notifications to the log. -/
lemma action_ok_spec (e : Evt) (s : SimState) (e2 : Evt) (s3 : SimState)
    (h : action e s = HRes.ok e2 s3) :
    e2.lastTime = e.time ∧ e2.id = e.id ∧ e2.stats = e.stats ∧
    e2.particles = e.particles ∧ e2.traces = e.traces ∧
    s3.globTime = s.globTime ∧ s3.deleted = s.deleted ∧ s3.rng = s.rng ∧
    s3.probeLog = s.probeLog ++ notifyProbes e2 := by
  unfold action at h
  cases hr : runHandler e.handler { e with lastTime := e.time, isInQueue := false } s with
  | error m sm =>
    rw [hr] at h
    simp at h
  | ok em sm =>
    rw [hr] at h
    simp only [HRes.ok.injEq] at h
    obtain ⟨he, hs⟩ := h
    subst he
    subst hs
    have hf := runHandler_ok_frame _ _ _ _ _ hr
    exact ⟨hf.1, hf.2.1, hf.2.2.1, hf.2.2.2.1, hf.2.2.2.2.1, hf.2.2.2.2.2.1,
      hf.2.2.2.2.2.2.1, hf.2.2.2.2.2.2.2.2, by rw [hf.2.2.2.2.2.2.2.1]⟩

/-- Helper: a handler body consisting of the single re-post
`this->post(td, disp)` on an un-queued event with `td` not in the past. -/
lemma runHandler_postSelf (e : Evt) (s : SimState) (td : Int) (disp : Bool)
    (hq : e.isInQueue = false) (hpast : ¬ td < s.globTime) :
    runHandler [HCmd.postSelf td disp] e s =
      HRes.ok
        { e with time := td, order := s.counter + 1, isInQueue := true, disposable := disp }
        { s with
          counter := s.counter + 1
          queue := insertEvt
            { e with time := td, order := s.counter + 1, isInQueue := true, disposable := disp }
            s.queue } := by
  simp only [runHandler, runCmd]
  unfold post
  rw [hq]
  rw [if_neg (by simp), if_neg hpast]

/-- C1: during `action()`, `lastTime` is frozen at the firing time before
the handler runs; a handler that re-posts its own event to a later time
`td` updates `time` to `td` and re-enqueues the event, but every
statistics/particle/trace probe notified right after the handler observes
`getLastTime()` equal to the original firing time, not `td`. -/
theorem lastTime_frozen (e : Evt) (s : SimState) (td : Int) (disp : Bool)
    (e2 : Evt) (s2 : SimState)
    (hh : e.handler = [HCmd.postSelf td disp]) (ht : e.time < td)
    (hok : action e s = HRes.ok e2 s2) :
    e2.lastTime = e.time ∧ e2.time = td ∧ e2.isInQueue = true ∧
    s2.probeLog = s.probeLog ++
      (e.stats ++ e.particles ++ e.traces).map (fun p => (p, e.id, e.time)) := by
  by_cases hpast : td < s.globTime
  · exfalso
    have herr : action e s = HRes.error "Cannot post an event in the past" s := by
      unfold action
      rw [hh]
      simp only [runHandler, runCmd]
      unfold post
      rw [if_neg (by simp), if_pos hpast]
    rw [herr] at hok
    exact HRes.noConfusion hok
  · have hrh := runHandler_postSelf
      { e with lastTime := e.time, isInQueue := false, handler := [HCmd.postSelf td disp] }
      s td disp rfl hpast
    have hact : action e s =
        HRes.ok
          { e with
            lastTime := e.time
            isInQueue := true
            time := td
            order := s.counter + 1
            disposable := disp
            handler := [HCmd.postSelf td disp] }
          { s with
            counter := s.counter + 1
            queue := insertEvt
              { e with
                lastTime := e.time
                isInQueue := true
                time := td
                order := s.counter + 1
                disposable := disp
                handler := [HCmd.postSelf td disp] } s.queue
            probeLog := s.probeLog ++ notifyProbes
              { e with
                lastTime := e.time
                isInQueue := true
                time := td
                order := s.counter + 1
                disposable := disp
                handler := [HCmd.postSelf td disp] } } := by
      unfold action
      rw [hh, hrh]
    rw [hact] at hok
    simp only [HRes.ok.injEq] at hok
    obtain ⟨he2, hs2⟩ := hok
    subst he2
    subst hs2
    exact ⟨rfl, rfl, rfl, rfl⟩

/-- Witness for C1: an event firing at time 10 whose handler re-posts it
to time 20; its stat probe observes 10. -/
theorem lastTime_frozen_witness :
    action ⟨1, 10, 0, 8, 8, 1, false, false, [7], [], [], [HCmd.postSelf 20 false]⟩
        ⟨5, 1, [], [], [], none, false, ⟨1, 1⟩⟩ =
      HRes.ok ⟨1, 20, 10, 8, 8, 2, true, false, [7], [], [], [HCmd.postSelf 20 false]⟩
        ⟨5, 2, [⟨1, 20, 10, 8, 8, 2, true, false, [7], [], [], [HCmd.postSelf 20 false]⟩],
          [(7, 1, 10)], [], none, false, ⟨1, 1⟩⟩ ∧
    (⟨1, 20, 10, 8, 8, 2, true, false, [7], [], [], [HCmd.postSelf 20 false]⟩ : Evt).lastTime =
      (⟨1, 10, 0, 8, 8, 1, false, false, [7], [], [], [HCmd.postSelf 20 false]⟩ : Evt).time :=
  ⟨by decide,
    (lastTime_frozen
      ⟨1, 10, 0, 8, 8, 1, false, false, [7], [], [], [HCmd.postSelf 20 false]⟩
      ⟨5, 1, [], [], [], none, false, ⟨1, 1⟩⟩ 20 false
      ⟨1, 20, 10, 8, 8, 2, true, false, [7], [], [], [HCmd.postSelf 20 false]⟩
      ⟨5, 2, [⟨1, 20, 10, 8, 8, 2, true, false, [7], [], [], [HCmd.postSelf 20 false]⟩],
        [(7, 1, 10)], [], none, false, ⟨1, 1⟩⟩
      rfl (by decide) (by decide)).1⟩

/-- Helper: `sim_step` on an empty queue throws `NoMoreEventsInQueue`
with the state untouched. -/
lemma sim_step_nil (s : SimState) (hq : s.queue = []) :
    sim_step s = StepRes.noMoreEvents s := by
  unfold sim_step
  rw [hq]

/-- Helper: `sim_step` on a non-empty queue whose head action succeeds. -/
lemma sim_step_cons_ok (s : SimState) (e : Evt) (rest : List Evt) (e2 : Evt) (s3 : SimState)
    (hq : s.queue = e :: rest)
    (ha : action { e with isInQueue := false }
      { s with queue := (e :: rest).filter (fun x => x.id ≠ e.id), globTime := e.time } =
      HRes.ok e2 s3) :
    sim_step s =
      if e2.disposable then StepRes.ok e.time { s3 with deleted := s3.deleted ++ [e2.id] }
      else StepRes.ok e.time s3 := by
  unfold sim_step
  simp only [hq]
  rw [ha]

/-- C3: `sim_step` on an empty queue throws the no-more-events error and
leaves the state (hence `globalTime`) unchanged; on a non-empty queue it
removes the head — the minimum of the queue order when the queue is
sorted — sets `globalTime` to the head's time, invokes its `action()`,
deletes the object exactly when its disposable flag is set, and returns
the head's time. -/
theorem sim_step_spec :
    (∀ s : SimState, s.queue = [] → sim_step s = StepRes.noMoreEvents s)
  ∧ (∀ (s : SimState) (e : Evt) (rest : List Evt), s.queue = e :: rest →
      s.queue.Pairwise (fun u v => cmpLt u v = true) → ∀ x ∈ rest, cmpLt e x = true)
  ∧ (∀ (s : SimState) (e : Evt) (rest : List Evt) (e2 : Evt) (s3 : SimState),
      s.queue = e :: rest → (∀ x ∈ rest, x.id ≠ e.id) →
      action { e with isInQueue := false } { s with queue := rest, globTime := e.time } =
        HRes.ok e2 s3 →
      sim_step s = (if e2.disposable then
          StepRes.ok e.time { s3 with deleted := s3.deleted ++ [e2.id] }
        else StepRes.ok e.time s3) ∧
      s3.globTime = e.time ∧
      (e2.disposable = true →
        (if e2.disposable then { s3 with deleted := s3.deleted ++ [e2.id] } else s3).deleted =
          s.deleted ++ [e2.id]) ∧
      (e2.disposable = false →
        (if e2.disposable then { s3 with deleted := s3.deleted ++ [e2.id] } else s3).deleted =
          s.deleted)) := by
  refine ⟨sim_step_nil, ?_, ?_⟩
  · intro s e rest hq hpw x hx
    rw [hq] at hpw
    exact (List.pairwise_cons.mp hpw).1 x hx
  · intro s e rest e2 s3 hq hid ha
    have hfilter : (e :: rest).filter (fun x => x.id ≠ e.id) = rest := by
      have h1 : rest.filter (fun x => x.id ≠ e.id) = rest :=
        List.filter_eq_self.mpr (fun x hx => by simp [hid x hx])
      simp [List.filter_cons, h1]
      intro a haR
      exact hid a haR
    have hs := action_ok_spec _ _ _ _ ha
    have hdel : s3.deleted = s.deleted := hs.2.2.2.2.2.2.1
    refine ⟨sim_step_cons_ok s e rest e2 s3 hq (by rw [hfilter]; exact ha), ?_, ?_, ?_⟩
    · exact hs.2.2.2.2.2.1
    · intro hd
      rw [if_pos hd]
      show s3.deleted ++ [e2.id] = s.deleted ++ [e2.id]
      rw [hdel]
    · intro hd
      rw [if_neg (by simp [hd])]
      exact hdel

/-- Witness for C3: one enqueued event with an empty handler at time 10. -/
theorem sim_step_spec_witness :
    (⟨0, 1, [⟨1, 10, 0, 8, 8, 1, true, false, [], [], [], []⟩], [], [], none, false,
        ⟨1, 1⟩⟩ : SimState).queue =
      ⟨1, 10, 0, 8, 8, 1, true, false, [], [], [], []⟩ :: [] ∧
    sim_step ⟨0, 1, [⟨1, 10, 0, 8, 8, 1, true, false, [], [], [], []⟩], [], [], none, false, ⟨1, 1⟩⟩ =
      StepRes.ok 10 ⟨10, 1, [], [], [], none, false, ⟨1, 1⟩⟩ :=
  ⟨rfl,
    (sim_step_spec.2.2
      ⟨0, 1, [⟨1, 10, 0, 8, 8, 1, true, false, [], [], [], []⟩], [], [], none, false, ⟨1, 1⟩⟩
      ⟨1, 10, 0, 8, 8, 1, true, false, [], [], [], []⟩ []
      ⟨1, 10, 10, 8, 8, 1, false, false, [], [], [], []⟩
      ⟨10, 1, [], [], [], none, false, ⟨1, 1⟩⟩
      rfl (by simp) (by decide)).1⟩

/-- Helper: a successful `sim_step` fires the queue head: it returns the
head's time, sets `globalTime` to it, and appends only probe observations
carrying that time. -/
lemma sim_step_ok_trace (s : SimState) (t : Int) (s' : SimState)
    (h : sim_step s = StepRes.ok t s') :
    ∃ e rest, s.queue = e :: rest ∧ t = e.time ∧ s'.globTime = e.time ∧
      ∃ new, s'.probeLog = s.probeLog ++ new ∧ ∀ p ∈ new, p.2.2 = e.time := by
  cases hq : s.queue with
  | nil =>
    rw [sim_step_nil s hq] at h
    exact absurd h (by simp)
  | cons e rest =>
    unfold sim_step at h
    simp only [hq] at h
    cases ha : action { e with isInQueue := false }
        { s with queue := (e :: rest).filter (fun x => x.id ≠ e.id), globTime := e.time } with
    | error m s3 =>
      simp only [ha] at h
      simp at h
    | ok e2 s3 =>
      simp only [ha] at h
      have hs := action_ok_spec _ _ _ _ ha
      split_ifs at h with hd
      · simp only [StepRes.ok.injEq] at h
        obtain ⟨hte, hs'⟩ := h
        subst hte
        subst hs'
        refine ⟨e, rest, rfl, rfl, hs.2.2.2.2.2.1, notifyProbes e2,
          hs.2.2.2.2.2.2.2.2, ?_⟩
        intro p hp
        obtain ⟨q, hq2, rfl⟩ := List.mem_map.mp hp
        exact hs.1
      · simp only [StepRes.ok.injEq] at h
        obtain ⟨hte, hs'⟩ := h
        subst hte
        subst hs'
        refine ⟨e, rest, rfl, rfl, hs.2.2.2.2.2.1, notifyProbes e2,
          hs.2.2.2.2.2.2.2.2, ?_⟩
        intro p hp
        obtain ⟨q, hq2, rfl⟩ := List.mem_map.mp hp
        exact hs.1

/-- Helper: a `sim_step` on a non-empty queue never throws
`NoMoreEventsInQueue`. -/
lemma sim_step_cons_ne_noMore (s : SimState) (e : Evt) (rest : List Evt) (s' : SimState)
    (hq : s.queue = e :: rest) : sim_step s ≠ StepRes.noMoreEvents s' := by
  intro hs
  unfold sim_step at hs
  simp only [hq] at hs
  cases ha : action { e with isInQueue := false }
      { s with queue := (e :: rest).filter (fun x => x.id ≠ e.id), globTime := e.time } with
  | error m s3 =>
    simp only [ha] at hs
    simp at hs
  | ok e2 s3 =>
    simp only [ha] at hs
    split_ifs at hs

/-- Helper: what an `exit` of the `run_to` loop guarantees: only events
with firing time at most `stop` were executed (every new probe entry
carries such a time); a `true` diagnostic flag means the queue ran empty;
a `false` flag means the next pending event lies strictly beyond
`stop`. -/
lemma runToLoop_exit_spec (stop : Int) :
    ∀ (fuel : Nat) (s s1 : SimState) (diag : Bool),
    runToLoop stop fuel s = LoopRes.exit s1 diag →
    (∃ new, s1.probeLog = s.probeLog ++ new ∧ ∀ p ∈ new, p.2.2 ≤ stop) ∧
    (diag = true → s1.queue = []) ∧
    (diag = false → ∃ e rest, s1.queue = e :: rest ∧ stop < e.time) := by
  intro fuel
  induction fuel with
  | zero =>
    intro s s1 diag h
    unfold runToLoop at h
    exact absurd h (by simp)
  | succ n ih =>
    intro s s1 diag h
    unfold runToLoop at h
    cases hq : s.queue with
    | nil =>
      have hg : getNextEventTime s = none := by
        unfold getNextEventTime
        rw [hq]
      simp only [hg] at h
      simp only [LoopRes.exit.injEq] at h
      obtain ⟨hs1, hdiag⟩ := h
      subst hs1
      subst hdiag
      refine ⟨⟨[], by simp, by simp⟩, fun _ => hq, fun hf => absurd hf (by simp)⟩
    | cons e rest =>
      have hg : getNextEventTime s = some e.time := by
        unfold getNextEventTime
        rw [hq]
      simp only [hg] at h
      split_ifs at h with hle
      · cases hs : sim_step s with
        | ok t s2 =>
          simp only [hs] at h
          have hrec := ih s2 s1 diag h
          obtain ⟨e', rest', hq', hte, hgt, new0, hpl, hbound⟩ := sim_step_ok_trace s t s2 hs
          rw [hq] at hq'
          have hee : e = e' := (List.cons.injEq _ _ _ _ ▸ hq').1
          obtain ⟨new1, hpl1, hbound1⟩ := hrec.1
          refine ⟨⟨new0 ++ new1, ?_, ?_⟩, hrec.2.1, hrec.2.2⟩
          · rw [hpl1, hpl, List.append_assoc]
          · intro p hp
            rcases List.mem_append.mp hp with hp0 | hp1
            · rw [hbound p hp0, ← hee]
              exact hle
            · exact hbound1 p hp1
        | noMoreEvents s2 =>
          exact absurd hs (sim_step_cons_ne_noMore s e rest s2 hq)
        | handlerExc m s2 =>
          simp only [hs] at h
          exact absurd h (by simp)
      · simp only [LoopRes.exit.injEq] at h
        obtain ⟨hs1, hdiag⟩ := h
        subst hs1
        subst hdiag
        refine ⟨⟨[], by simp, by simp⟩, fun hf => absurd hf (by simp), ?_⟩
        intro _
        exact ⟨e, rest, hq, by omega⟩

/-- C4: when `run_to(stop)` returns normally, the returned tick is the
final `globalTime`, clamped up to `stop` (so never below it); every event
executed during the call fired at a time at most `stop` (observed by all
probe entries added), an event beyond `stop` never having been executed;
a printed no-more-events diagnostic means the queue ran empty (the error
is not propagated — the call still returns normally); and with no
diagnostic the next pending event lies strictly beyond `stop`. -/
theorem run_to_spec (stop : Int) (fuel : Nat) (s : SimState) (ret : Int)
    (sf : SimState) (diag : Bool)
    (h : run_to stop fuel s = RunRes.done ret sf diag) :
    ret = sf.globTime ∧ stop ≤ ret ∧
    (∃ new, sf.probeLog = s.probeLog ++ new ∧ ∀ p ∈ new, p.2.2 ≤ stop) ∧
    (diag = true → sf.queue = []) ∧
    (diag = false → ∃ e rest, sf.queue = e :: rest ∧ stop < e.time) := by
  unfold run_to at h
  cases hl : runToLoop stop fuel s with
  | fuelOut s1 =>
    simp only [hl] at h
    exact absurd h (by simp)
  | exc m s1 =>
    simp only [hl] at h
    exact absurd h (by simp)
  | exit s1 d =>
    simp only [hl] at h
    have hspec := runToLoop_exit_spec stop fuel s s1 d hl
    split_ifs at h with hlt
    · simp only [RunRes.done.injEq] at h
      obtain ⟨hret, hsf, hdiag⟩ := h
      subst hret
      subst hsf
      subst hdiag
      exact ⟨rfl, le_refl stop, hspec.1, hspec.2.1, hspec.2.2⟩
    · simp only [RunRes.done.injEq] at h
      obtain ⟨hret, hsf, hdiag⟩ := h
      subst hret
      subst hsf
      subst hdiag
      exact ⟨rfl, by omega, hspec.1, hspec.2.1, hspec.2.2⟩

/-- Witness for C4: one event at time 10, horizon 15: the event fires,
the queue empties with a diagnostic, and the result is clamped to 15. -/
theorem run_to_spec_witness :
    run_to 15 3 ⟨0, 1, [⟨1, 10, 0, 8, 8, 1, true, false, [], [], [], []⟩], [], [], none, false,
        ⟨1, 1⟩⟩ =
      RunRes.done 15 ⟨15, 1, [], [], [], none, false, ⟨1, 1⟩⟩ true ∧
    (15 : Int) ≤ 15 :=
  ⟨by decide,
    (run_to_spec 15 3
      ⟨0, 1, [⟨1, 10, 0, 8, 8, 1, true, false, [], [], [], []⟩], [], [], none, false, ⟨1, 1⟩⟩
      15 ⟨15, 1, [], [], [], none, false, ⟨1, 1⟩⟩ true (by decide)).2.1⟩
